import Mathlib

/-!
Verification of the microscope orchestration servers (BEACON_Server and
GatanServer) and their client-side control library, against their
natural-language specification.

The development shallowly embeds the Python sources:

* `src/microscope_server.py` — the `BEACON_Server` command dispatch loop,
  `abChange`, `comp_shift_calc`, `metric_func`;
* `src/gatan_server.py` — the `GatanServer` dispatch loop with its
  TIA/Gatan mode bracket and the file-synchronized acquisition scripts;
* `src/mcp_library.py` — `cross_correlate`, `registration`, `center_region`.

Python dictionaries are embedded as ordered association lists, Python
numbers as exact rationals or reals (an idealization of IEEE floats),
exceptions as `Except` values, and the external collaborators (TIA/COM
driver, CEOS corrector, filesystem, DigitalMicrograph engine) as abstract
environments or event traces.
-/

namespace Spec2Proof

/-- Embedded Python values as they travel through the pickled
command/reply protocol.  Numbers are modelled as rationals. -/
inductive PyVal where
  | none : PyVal
  | bool : Bool → PyVal
  | str : String → PyVal
  | num : ℚ → PyVal
  deriving BEq, DecidableEq, Repr

/-- Embedded Python exceptions relevant to the claims. -/
inductive PyErr where
  | keyError : String → PyErr
  | nameError : String → PyErr
  | typeError : String → PyErr
  | valueError : String → PyErr
  deriving BEq, DecidableEq, Repr

/-- A Python dict keyed by strings, in insertion order. -/
abbrev Dict := List (String × PyVal)

/-- Dictionary subscript `d[k]`: the value at the first matching key, or a
`KeyError` as in Python. -/
def dget (d : Dict) (k : String) : Except PyErr PyVal :=
  match d.find? (fun kv => kv.1 = k) with
  | Option.none => Except.error (PyErr.keyError k)
  | Option.some kv => Except.ok kv.2

/-- The reply dictionary built by `BEACON_Server.__init__`:
`{"reply_message": reply_message, "reply_data": reply_data}`.  The status
text is a string or Python `None`; the data slot holds any value.  The
reply carries no further fields; in particular it has no error slot. -/
structure Reply where
  reply_message : Option String
  reply_data : PyVal
  deriving BEq, DecidableEq, Repr

/-- Python equality test `instruction == "tag"` between a decoded value
and a string literal: false (without raising) on non-strings. -/
def isTag (v : PyVal) (s : String) : Bool :=
  v == PyVal.str s

/-- Abstract collaborators of `BEACON_Server`: the CEOS-backed server
methods and the `TIA_control` driver operations invoked from the dispatch
loop.  Each may raise.  These are the external interfaces of the spec; the
dispatch loop itself is embedded concretely below. -/
structure BeaconEnv where
  c1a1_measurement : Dict → Except PyErr PyVal
  tableau_measurement : Dict → Except PyErr PyVal
  acquire_image_with_aberrations : Dict → Except PyErr PyVal
  abChangeOp : PyVal → PyVal → PyVal → PyVal → Except PyErr PyVal
  microscope_acquire_image2 : PyVal → PyVal → Except PyErr (PyVal × PyVal × PyVal × PyVal)
  microscope_acquire_image3 : PyVal → PyVal → PyVal → Except PyErr PyVal
  move_stage_delta : PyVal → PyVal → PyVal → PyVal → PyVal → Except PyErr PyVal
  move_stage_goto : PyVal → PyVal → PyVal → PyVal → PyVal → Except PyErr PyVal
  get_mag : Except PyErr PyVal
  get_stage_pos : Except PyErr PyVal
  get_camera_length : Except PyErr PyVal
  get_camera_length_index : Except PyErr PyVal
  get_defocus : Except PyErr PyVal
  get_voltage : Except PyErr PyVal
  set_mag : PyVal → Except PyErr PyVal
  set_camera_length_index : PyVal → Except PyErr PyVal
  set_defocus : PyVal → Except PyErr PyVal
  open_column_valve : Except PyErr PyVal
  close_column_valve : Except PyErr PyVal
  column_valves_open : Except PyErr Bool
  blank : Except PyErr PyVal
  unblank : Except PyErr PyVal
  get_screenshot : Except PyErr PyVal
  get_condenser_stigmator : Except PyErr PyVal
  set_condenser_stigmator : PyVal → Except PyErr PyVal
  get_convergence_angle : Except PyErr PyVal
  get_stem_rotation : Except PyErr PyVal
  set_stem_rotation : PyVal → Except PyErr PyVal

/-- One pass of the `while True` body of `BEACON_Server.__init__`
(src/microscope_server.py lines 587-693): decode the instruction, run the
selected branch, and build the reply dict.  The mutable server state
visible to the branches is `refImage`.  A branch that raises propagates
its exception (there is no try/except in the source loop); the final
`else` branch replies with `reply_message = None, reply_data = None`. -/
def dispatchStep (env : BeaconEnv) (refImage : Option PyVal) (d : Dict) :
    Except PyErr (Reply × Option PyVal) := do
  let instruction ← dget d "type"
  if isTag instruction "ping" then
    Except.ok (⟨Option.some "pinged", PyVal.none⟩, refImage)
  else if isTag instruction "c1a1" then
    let r ← env.c1a1_measurement d
    Except.ok (⟨Option.some "c1a1 measured", r⟩, refImage)
  else if isTag instruction "tableau" then
    let r ← env.tableau_measurement d
    Except.ok (⟨Option.some "tableau measured", r⟩, refImage)
  else if isTag instruction "ac" then
    let r ← env.acquire_image_with_aberrations d
    Except.ok (⟨Option.some "ac", r⟩, refImage)
  else if isTag instruction "ab_only" then
    let av ← dget d "ab_values"
    let asel ← dget d "ab_select"
    let flag ← dget d "C1_defocus_flag"
    let bsc ← dget d "bscomp"
    let r ← env.abChangeOp av asel flag bsc
    Except.ok (⟨Option.some "aberrations changed", r⟩, refImage)
  else if isTag instruction "ref" then
    let dw ← dget d "dwell"
    let sh ← dget d "shape"
    let (im, _, _, _) ← env.microscope_acquire_image2 dw sh
    Except.ok (⟨Option.some "reference image set", im⟩, Option.some im)
  else if isTag instruction "image" then
    let dw ← dget d "dwell"
    let sh ← dget d "shape"
    let off ← dget d "offset"
    let r ← env.microscope_acquire_image3 dw sh off
    Except.ok (⟨Option.some "image acquired", r⟩, refImage)
  else if isTag instruction "move_stage" then
    let x ← dget d "dX"
    let y ← dget d "dY"
    let z ← dget d "dZ"
    let a ← dget d "dA"
    let b ← dget d "dB"
    let r ← env.move_stage_delta x y z a b
    Except.ok (⟨Option.some "stage moved", r⟩, refImage)
  else if isTag instruction "move_stage_goto" then
    let x ← dget d "X"
    let y ← dget d "Y"
    let z ← dget d "Z"
    let a ← dget d "A"
    let b ← dget d "B"
    let r ← env.move_stage_goto x y z a b
    Except.ok (⟨Option.some "stage moved", r⟩, refImage)
  else if isTag instruction "get_mag" then
    let r ← env.get_mag
    Except.ok (⟨Option.some "mag obtained", r⟩, refImage)
  else if isTag instruction "get_stage_pos" then
    let r ← env.get_stage_pos
    Except.ok (⟨Option.some "pos obtained", r⟩, refImage)
  else if isTag instruction "get_camera_length" then
    let r ← env.get_camera_length
    Except.ok (⟨Option.some "camera length obtained", r⟩, refImage)
  else if isTag instruction "get_camera_length_index" then
    let r ← env.get_camera_length_index
    Except.ok (⟨Option.some "camera length index obtained", r⟩, refImage)
  else if isTag instruction "get_defocus" then
    let r ← env.get_defocus
    Except.ok (⟨Option.some "defocus acquired", r⟩, refImage)
  else if isTag instruction "get_voltage" then
    let r ← env.get_voltage
    Except.ok (⟨Option.some "voltage acquired", r⟩, refImage)
  else if isTag instruction "set_mag" then
    let m ← dget d "mag"
    let r ← env.set_mag m
    Except.ok (⟨Option.some "mag changed", r⟩, refImage)
  else if isTag instruction "set_camera_length_index" then
    let cl ← dget d "CL_index"
    let r ← env.set_camera_length_index cl
    Except.ok (⟨Option.some "camera_length set", r⟩, refImage)
  else if isTag instruction "set_defocus" then
    let t ← dget d "target_df"
    let r ← env.set_defocus t
    Except.ok (⟨Option.some "defocus set", r⟩, refImage)
  else if isTag instruction "open_column_valve" then
    let _ ← env.open_column_valve
    let isOpen ← env.column_valves_open
    let msg := if isOpen then "column valve open" else "column valve NOT open"
    Except.ok (⟨Option.some msg, PyVal.none⟩, refImage)
  else if isTag instruction "close_column_valve" then
    let _ ← env.close_column_valve
    let isOpen ← env.column_valves_open
    let msg := if ¬isOpen then "column valve closed" else "column valve NOT closed"
    Except.ok (⟨Option.some msg, PyVal.none⟩, refImage)
  else if isTag instruction "blank_beam" then
    let r ← env.blank
    Except.ok (⟨Option.some "beam blanked", r⟩, refImage)
  else if isTag instruction "unblank_beam" then
    let r ← env.unblank
    Except.ok (⟨Option.some "beam unblanked", r⟩, refImage)
  else if isTag instruction "get_screenshot" then
    let r ← env.get_screenshot
    Except.ok (⟨Option.some "screenshot taken", r⟩, refImage)
  else if isTag instruction "get_condenser_stigmator" then
    let r ← env.get_condenser_stigmator
    Except.ok (⟨Option.some "get condenser stigmator", r⟩, refImage)
  else if isTag instruction "set_condenser_stigmator" then
    let cs ← dget d "cond_stig"
    let r ← env.set_condenser_stigmator cs
    Except.ok (⟨Option.some "set condenser stigmator", r⟩, refImage)
  else if isTag instruction "get_convergence_angle" then
    let r ← env.get_convergence_angle
    Except.ok (⟨Option.some "get convergence angle", r⟩, refImage)
  else if isTag instruction "get_stem_rotation" then
    let r ← env.get_stem_rotation
    Except.ok (⟨Option.some "get stem rotation", r⟩, refImage)
  else if isTag instruction "set_stem_rotation" then
    let sr ← dget d "stem_rotation"
    let r ← env.set_stem_rotation sr
    Except.ok (⟨Option.some "set stem rotation", r⟩, refImage)
  else
    Except.ok (⟨Option.none, PyVal.none⟩, refImage)

/-- The serve loop of `BEACON_Server`: process requests in order, sending
exactly one reply per successfully dispatched request.  An exception
escaping a dispatch pass aborts the loop (the source has no handler), so
no reply is sent for that request nor for any later one.  The returned
list is the sequence of replies actually sent. -/
def serveBEACON (env : BeaconEnv) (refImage : Option PyVal) :
    List Dict → List Reply
  | [] => []
  | d :: rest =>
    match dispatchStep env refImage d with
    | Except.ok (r, st) => r :: serveBEACON env st rest
    | Except.error _ => []

/-- A concrete instantiation of the collaborators in which every
operation succeeds and returns `None`, used to evaluate the dispatcher on
concrete requests. -/
def envOk : BeaconEnv where
  c1a1_measurement := fun _ => Except.ok PyVal.none
  tableau_measurement := fun _ => Except.ok PyVal.none
  acquire_image_with_aberrations := fun _ => Except.ok PyVal.none
  abChangeOp := fun _ _ _ _ => Except.ok PyVal.none
  microscope_acquire_image2 := fun _ _ =>
    Except.ok (PyVal.none, PyVal.none, PyVal.none, PyVal.none)
  microscope_acquire_image3 := fun _ _ _ => Except.ok PyVal.none
  move_stage_delta := fun _ _ _ _ _ => Except.ok PyVal.none
  move_stage_goto := fun _ _ _ _ _ => Except.ok PyVal.none
  get_mag := Except.ok PyVal.none
  get_stage_pos := Except.ok PyVal.none
  get_camera_length := Except.ok PyVal.none
  get_camera_length_index := Except.ok PyVal.none
  get_defocus := Except.ok PyVal.none
  get_voltage := Except.ok PyVal.none
  set_mag := fun _ => Except.ok PyVal.none
  set_camera_length_index := fun _ => Except.ok PyVal.none
  set_defocus := fun _ => Except.ok PyVal.none
  open_column_valve := Except.ok PyVal.none
  close_column_valve := Except.ok PyVal.none
  column_valves_open := Except.ok true
  blank := Except.ok PyVal.none
  unblank := Except.ok PyVal.none
  get_screenshot := Except.ok PyVal.none
  get_condenser_stigmator := Except.ok PyVal.none
  set_condenser_stigmator := fun _ => Except.ok PyVal.none
  get_convergence_angle := Except.ok PyVal.none
  get_stem_rotation := Except.ok PyVal.none
  set_stem_rotation := fun _ => Except.ok PyVal.none

/-! The GatanServer (src/gatan_server.py): mode arbiter bracket, unknown
commands, and the file-synchronized DigitalMicrograph acquisition. -/

/-- Embedding of `GatanServer.set_is_gatan`: the physical hand-off
(`set_Gatan` / `set_TIA2`) is an external side effect performed when not
simulating; the method returns its argument on both branches. -/
def set_is_gatan (sim : Bool) (ig : Bool) : Bool :=
  if sim then ig else ig

/-- Embedding of the mode bracket around the `acquire_4dcamera_scan` and
`acquire_stem_scan` dispatch branches (src/gatan_server.py lines 63-80):
record `prev_is_gatan`, switch to Gatan if not already there, run the
inner acquisition, and switch back only if the mode changed.  The inner
acquisition may raise; the source has no try/finally, so an exception
leaves the loop with `is_gatan` as it stood at the raise.  The result
pairs the propagated acquisition outcome with the final `is_gatan`. -/
def gatanAcquireBracket (inner : Except PyErr PyVal) (sim : Bool) (g0 : Bool) :
    Except PyErr PyVal × Bool :=
  let prev := g0
  let g1 := if ¬g0 then set_is_gatan sim true else g0
  match inner with
  | Except.error e => (Except.error e, g1)
  | Except.ok ret =>
    let g2 := if g1 ≠ prev then set_is_gatan sim prev else g1
    (Except.ok ret, g2)

/-- Embedding of the final `else` branch of the GatanServer dispatch loop
(src/gatan_server.py lines 91-92): it executes
`print(f"unknown command: {upd}")`, but `upd` is bound nowhere in the
program, so Python raises `NameError` before any reply is sent. -/
def gatanUnknownStep : Except PyErr (Option (String × PyVal)) :=
  Except.error (PyErr.nameError "upd")

/-- Events observable at the boundary between `GatanServer` and the
filesystem / DigitalMicrograph engine during one acquisition. -/
inductive AcqEvent where
  | writeScript : AcqEvent
  | deleteArtifact : AcqEvent
  | invokeEngine : AcqEvent
  | waitArtifact : AcqEvent
  | parseArtifact : AcqEvent
  deriving BEq, DecidableEq, Repr

/-- Resolution of the name `dm_script` inside `GatanServer`: the template
module is imported as `dm_scripts` (src/gatan_server.py line 17), but
`call_4DCam_script` and `call_stem_script` reference `dm_script`, which is
bound nowhere, so evaluating it raises `NameError`. -/
def dm_script_lookup : Except PyErr Unit :=
  Except.error (PyErr.nameError "dm_script")

/-- Embedding of `GatanServer.call_4DCam_script` (src/gatan_server.py
lines 200-233) as an event-trace program.  The first statement of the try
block evaluates `dm_script.dynamic_dm_script(...)`, which raises
`NameError` (see `dm_script_lookup`); the bare `except: raise` re-raises
it.  The remaining statements — write the script, delete a pre-existing
`latest_4Dscan.dm4`, invoke DigitalMicrograph, poll for the artifact — are
kept as the unreachable continuation.  `artifactExists` states whether a
stale completion artifact is present at invocation time. -/
def call_4DCam_script (sim artifactExists : Bool) :
    Except PyErr Unit × List AcqEvent :=
  match dm_script_lookup with
  | Except.error e => (Except.error e, [])
  | Except.ok _ =>
    let tail := if sim then [] else
      (if artifactExists then [AcqEvent.deleteArtifact] else []) ++
      [AcqEvent.invokeEngine, AcqEvent.waitArtifact]
    (Except.ok (), AcqEvent.writeScript :: tail)

/-- Embedding of `GatanServer.acquire_4dcamera_scan` (src/gatan_server.py
lines 173-198): run `call_4DCam_script`, then read the dm4 artifact back
with `ncempy`.  The parse step is reached only if the call returns. -/
def acquire_4dcamera_scan (sim artifactExists : Bool) :
    Except PyErr Unit × List AcqEvent :=
  match call_4DCam_script sim artifactExists with
  | (Except.error e, tr) => (Except.error e, tr)
  | (Except.ok _, tr) => (Except.ok (), tr ++ [AcqEvent.parseArtifact])

/-! Theorems for claims C1-C5. -/

/-- Claim C1: the claim states that an unrecognized command tag always
produces an explicit error reply and never a contentless no-op.  The code
does the opposite: `BEACON_Server` replies
`{"reply_message": None, "reply_data": None}` — a contentless no-op with
no error marker — and `GatanServer` raises `NameError` (unbound `upd`)
without replying at all.  This theorem evaluates both dispatchers on the
unknown tag `bogus`. -/
theorem unknown_tag_is_silent_noop :
    dispatchStep envOk Option.none [("type", PyVal.str "bogus")] =
      Except.ok (⟨Option.none, PyVal.none⟩, Option.none) ∧
    gatanUnknownStep = Except.error (PyErr.nameError "upd") := by
  exact ⟨rfl, rfl⟩

/-- Claim C2 (amended): a handler that raises is not caught at the
dispatch boundary: the exception propagates out of the `while True` loop,
no reply (error or otherwise) is sent for that request, and the server
stops serving, so no later request receives a reply either. -/
theorem beacon_handler_exception_halts_loop
    (env : BeaconEnv) (st : Option PyVal) (d : Dict) (rest : List Dict)
    (e : PyErr) (h : dispatchStep env st d = Except.error e) :
    serveBEACON env st (d :: rest) = [] := by
  simp only [serveBEACON, h]

/-- Witness for `beacon_handler_exception_halts_loop`: the request
`{"type": "image"}` raises a `KeyError` for `dwell` at
`self.d["dwell"]` inside the dispatch branch, and a serve run on it
followed by a ping emits no reply at all. -/
theorem beacon_handler_exception_halts_loop_witness :
    dispatchStep envOk Option.none [("type", PyVal.str "image")] =
      Except.error (PyErr.keyError "dwell") ∧
    serveBEACON envOk Option.none
      [[("type", PyVal.str "image")], [("type", PyVal.str "ping")]] = [] :=
  ⟨rfl, beacon_handler_exception_halts_loop envOk Option.none
    [("type", PyVal.str "image")] [[("type", PyVal.str "ping")]]
    (PyErr.keyError "dwell") rfl⟩

/-- Counterexample to claim C2 as stated: on the request sequence
`[{"type": "image"}, {"type": "ping"}]` the server sends no replies at all
— the claim would require two replies, the first being an error reply —
although the ping alone would have been answered. -/
theorem beacon_handler_exception_counterexample :
    serveBEACON envOk Option.none
      [[("type", PyVal.str "image")], [("type", PyVal.str "ping")]] = [] ∧
    serveBEACON envOk Option.none [[("type", PyVal.str "ping")]] =
      [⟨Option.some "pinged", PyVal.none⟩] := by
  exact ⟨rfl, rfl⟩

/-- Claim C3 (amended): the Gatan mode bracket restores the arbiter state
observed before the operation whenever the inner acquisition returns
successfully, for every starting mode; when the inner acquisition raises,
the exception propagates before the switch-back, so the arbiter is left
in the scripted (Gatan) mode. -/
theorem gatan_mode_restored_on_success
    (inner : Except PyErr PyVal) (sim g0 : Bool) (r : PyVal)
    (h : inner = Except.ok r) :
    (gatanAcquireBracket inner sim g0).2 = g0 := by
  subst h
  cases g0 <;> cases sim <;> rfl

/-- Witness for `gatan_mode_restored_on_success`: a successful scan
started from the TIA (interactive) mode ends back in TIA mode. -/
theorem gatan_mode_restored_on_success_witness :
    (gatanAcquireBracket (Except.ok PyVal.none) false false).2 = false :=
  gatan_mode_restored_on_success (Except.ok PyVal.none) false false
    PyVal.none rfl

/-- Counterexample to claim C3 as stated: starting from the TIA
(interactive) mode, an inner acquisition that raises (as every one does,
via the `dm_script` NameError) leaves the arbiter in the Gatan mode: the
state after the operation differs from the state before it. -/
theorem gatan_mode_bracket_counterexample :
    (gatanAcquireBracket (Except.error (PyErr.nameError "dm_script"))
      false false).2 ≠ false := by
  decide

/-- Claim C4: the command `{"type": "ping"}` is answered, in any
collaborator environment and any server state, with status text
`pinged` and data `None`; the reply dict has no error content (it has
no error slot at all, and its only two fields are `pinged` and
`None`). -/
theorem beacon_ping_reply (env : BeaconEnv) (st : Option PyVal) :
    dispatchStep env st [("type", PyVal.str "ping")] =
      Except.ok (⟨Option.some "pinged", PyVal.none⟩, st) := rfl

/-- Claim C5: evaluation of the synchronized acquisition at a concrete
invocation (live mode, stale artifact present).  The acquisition raises
`NameError` — the module is imported as `dm_scripts` but referenced as
`dm_script` — before any boundary event: no script is written (so not
exactly one per invocation), the stale artifact is not deleted, the
engine is never invoked, and nothing is parsed. -/
theorem gatan_acquire_name_error :
    acquire_4dcamera_scan false true =
      (Except.error (PyErr.nameError "dm_script"), []) ∧
    (acquire_4dcamera_scan false true).2.count AcqEvent.writeScript = 0 := by
  exact ⟨rfl, rfl⟩

/-! Aberration application and beam-shift compensation
(`BEACON_Server.abChange` and `BEACON_Server.comp_shift_calc`,
src/microscope_server.py lines 695-791). -/

/-- An Aberration Correction Set: the `ab_values` dict, an ordered map
from aberration name to delta. -/
abbrev AbSet := List (String × ℚ)

/-- The fixed per-instrument shift scaling factor table `ssf_dict` of
`comp_shift_calc` (src/microscope_server.py lines 760-773). -/
def ssf_dict (name : String) : Option (ℚ × ℚ) :=
  if name = "C1" then Option.some (0, 0)
  else if name = "A1_x" then Option.some (0, 0)
  else if name = "A1_y" then Option.some (0, 0)
  else if name = "B2_x" then Option.some (2/400, 0/400)
  else if name = "B2_y" then Option.some (3/400, -1/400)
  else if name = "A2_x" then Option.some (-5/400, -1/400)
  else if name = "A2_y" then Option.some (-7/400, -7/400)
  else if name = "C3" then Option.some (0, 0)
  else if name = "A3_x" then Option.some (-16/400, -4/400)
  else if name = "A3_y" then Option.some (2/400, -24/400)
  else if name = "S3_x" then Option.some (5/1000, 1/1000)
  else if name = "S3_y" then Option.some (0/1000, 5/1000)
  else Option.none

/-- The twelve aberration names carried by `ssf_dict`. -/
def knownAbNames : List String :=
  ["C1", "A1_x", "A1_y", "B2_x", "B2_y", "A2_x", "A2_y", "C3",
   "A3_x", "A3_y", "S3_x", "S3_y"]

/-- One row of the `shifts` array of `comp_shift_calc`: Python evaluates
`ab_values[ab] * ssf_dict[ab][0]` (and `[1]`), raising `KeyError` when
`ab` is not in the table. -/
def shiftTerm (kv : String × ℚ) : Except PyErr (ℚ × ℚ) :=
  match ssf_dict kv.1 with
  | Option.none => Except.error (PyErr.keyError kv.1)
  | Option.some s => Except.ok (kv.2 * s.1, kv.2 * s.2)

/-- The `shifts` array of `comp_shift_calc`, built row by row as in the
`for i, ab in enumerate(ab_list)` loop; the first unknown name raises
`KeyError` before any later row is computed. -/
def shiftRows : AbSet → Except PyErr (List (ℚ × ℚ))
  | [] => Except.ok []
  | kv :: S => do
    let row ← shiftTerm kv
    let rest ← shiftRows S
    Except.ok (row :: rest)

/-- Embedding of `BEACON_Server.comp_shift_calc`
(src/microscope_server.py lines 739-791): accumulate the per-name shift
rows (failing with `KeyError` at the first name missing from `ssf_dict`),
sum the columns, and divide by the `We` scale factors
`We_x_ssf = 21/10` and `We_y_ssf = -21/10`. -/
def comp_shift_calc (ab_values : AbSet) : Except PyErr (ℚ × ℚ) := do
  let shifts ← shiftRows ab_values
  let shift_x := (shifts.map Prod.fst).sum
  let shift_y := (shifts.map Prod.snd).sum
  Except.ok (-shift_x / (21/10), -shift_y / (-21/10))

/-- The first key of a correction set that is missing from `ssf_dict`,
in insertion order, if any. -/
def firstUnknownKey : AbSet → Option String
  | [] => Option.none
  | kv :: S =>
    if (ssf_dict kv.1).isNone then Option.some kv.1 else firstUnknownKey S

/-- Modelled from the spec wording of the claim: the compensation pair as
a fixed linear combination of the deltas, with coefficients taken from
the scale-factor table and the `We` factors `21/10` and `-21/10`. -/
def compFormula (S : AbSet) : ℚ × ℚ :=
  ((-10/21) * (S.map (fun kv => kv.2 * ((ssf_dict kv.1).getD (0, 0)).1)).sum,
   (10/21) * (S.map (fun kv => kv.2 * ((ssf_dict kv.1).getD (0, 0)).2)).sum)

/-- Observable instrument state behind `abChange`: the microscope
defocus (`TIA_control.change_defocus` adds its argument to
`Proj.Defocus`) and the per-name aberration values held by the CEOS
corrector (`correctAberration` offsets the named aberration by the given
x/y pair relative to its current state). -/
structure Scope where
  defocus : ℚ
  ab : String → ℚ × ℚ

/-- Relative defocus change (`TIA_control.change_defocus`). -/
def change_defocus (st : Scope) (df : ℚ) : Scope :=
  { st with defocus := st.defocus + df }

/-- Relative aberration change (`CorrectorCommands.correctAberration`):
offset the named aberration by the value pair. -/
def correctAberration (st : Scope) (name : String) (v : ℚ × ℚ) : Scope :=
  { st with ab := Function.update st.ab name (st.ab name + v) }

/-- Python `str.endswith`, evaluated on the underlying character list. -/
def pyEndsWith (s suffix : String) : Bool :=
  suffix.data.isSuffixOf s.data

/-- One iteration of the `for i in range(len(ab_values))` loop of
`abChange` (src/microscope_server.py lines 721-733): two-character names
go to the corrector as x-values (`C1` optionally routed to the microscope
defocus), names ending in `_x` or `_y` are truncated to the family name
and routed to the corresponding component; the `ab_select` dict is
subscripted before each corrector call and may raise `KeyError`.  A name
matching no branch is silently skipped by the source loop. -/
def abChangeStep (flag : Bool) (sel : Dict) (st : Scope) (kv : String × ℚ) :
    Except PyErr Scope :=
  if kv.1.length = 2 then
    if kv.1 = "C1" then
      if flag then Except.ok (change_defocus st kv.2)
      else do
        let _ ← dget sel kv.1
        Except.ok (correctAberration st kv.1 (kv.2, 0))
    else do
      let _ ← dget sel kv.1
      Except.ok (correctAberration st kv.1 (kv.2, 0))
  else if pyEndsWith kv.1 "_x" then do
    let _ ← dget sel kv.1
    Except.ok (correctAberration st (kv.1.take 2) (kv.2, 0))
  else if pyEndsWith kv.1 "_y" then do
    let _ ← dget sel kv.1
    Except.ok (correctAberration st (kv.1.take 2) (0, kv.2))
  else Except.ok st

/-- Embedding of `BEACON_Server.abChange` (src/microscope_server.py
lines 695-737): negate the value list when undoing, apply each entry in
order, then — when beam-shift compensation is on — apply the `We` shift
computed by `comp_shift_calc` from the **original** `ab_values` dict
(the negation above acts on the local value list only, not on the dict
that `comp_shift_calc` receives). -/
def abChange (st : Scope) (ab_values : AbSet) (ab_select : Dict)
    (C1_defocus_flag undo bscomp : Bool) : Except PyErr Scope := do
  let vals := if undo then ab_values.map (fun kv => (kv.1, -kv.2)) else ab_values
  let st1 ← vals.foldlM (abChangeStep C1_defocus_flag ab_select) st
  if bscomp then
    let comp ← comp_shift_calc ab_values
    Except.ok (correctAberration st1 "We" comp)
  else
    Except.ok st1

/-- The initial observable state used in concrete evaluations: zero
defocus and zero aberration values. -/
def scope0 : Scope := ⟨0, fun _ => (0, 0)⟩

/-- Application of a correction set followed by its undo within the same
logical operation, as performed by `acquire_image_with_aberrations`
(src/microscope_server.py lines 976-978). -/
def abRoundTrip (S : AbSet) (sel : Dict) (flag bscomp : Bool) :
    Except PyErr Scope :=
  (abChange scope0 S sel flag false bscomp).bind
    (fun s1 => abChange s1 S sel flag true bscomp)

/-- Bind on an ok value reduces to the continuation. -/
theorem okBind {ε α β : Type} (x : α) (f : α → Except ε β) :
    (Except.ok x >>= f) = f x := rfl

/-- Bind on an error propagates the error. -/
theorem errBind {ε α β : Type} (e : ε) (f : α → Except ε β) :
    ((Except.error e : Except ε α) >>= f) = Except.error e := rfl

/-- Every one of the twelve known aberration names has a row in the
scale-factor table. -/
theorem ssf_known (name : String) (h : name ∈ knownAbNames) :
    (ssf_dict name).isSome = true := by
  simp only [knownAbNames, List.mem_cons, List.not_mem_nil, or_false] at h
  rcases h with rfl|rfl|rfl|rfl|rfl|rfl|rfl|rfl|rfl|rfl|rfl|rfl <;> rfl

/-- A name outside the twelve known aberration names has no row in the
scale-factor table. -/
theorem ssf_unknown (name : String) (h : name ∉ knownAbNames) :
    ssf_dict name = Option.none := by
  simp only [knownAbNames, List.mem_cons, List.not_mem_nil, or_false,
    not_or] at h
  obtain ⟨h1, h2, h3, h4, h5, h6, h7, h8, h9, h10, h11, h12⟩ := h
  rw [ssf_dict, if_neg h1, if_neg h2, if_neg h3, if_neg h4, if_neg h5,
    if_neg h6, if_neg h7, if_neg h8, if_neg h9, if_neg h10, if_neg h11,
    if_neg h12]

/-- A correction set whose keys are all known has no first unknown key. -/
theorem firstUnknownKey_eq_none (S : AbSet)
    (h : ∀ kv ∈ S, kv.1 ∈ knownAbNames) :
    firstUnknownKey S = Option.none := by
  induction S with
  | nil => rfl
  | cons kv S ih =>
    have hk : (ssf_dict kv.1).isSome = true :=
      ssf_known kv.1 (h kv (List.mem_cons_self kv S))
    have hk2 : (ssf_dict kv.1).isNone = false := by
      cases hh : ssf_dict kv.1 with
      | none => rw [hh] at hk; simp at hk
      | some s => rfl
    simp only [firstUnknownKey, hk2, Bool.false_eq_true, if_false]
    exact ih (fun x hx => h x (List.mem_cons_of_mem kv hx))

/-- A correction set containing an unknown key has a first unknown key,
and that key is itself unknown. -/
theorem firstUnknownKey_eq_some (S : AbSet)
    (h : ∃ kv ∈ S, kv.1 ∉ knownAbNames) :
    ∃ k, k ∉ knownAbNames ∧ firstUnknownKey S = Option.some k := by
  induction S with
  | nil => simp at h
  | cons kv S ih =>
    by_cases hh : (ssf_dict kv.1).isNone
    · refine ⟨kv.1, ?_, by simp [firstUnknownKey, hh]⟩
      intro hmem
      have := ssf_known kv.1 hmem
      cases hc : ssf_dict kv.1 with
      | none => rw [hc] at this; simp at this
      | some s => rw [hc] at hh; simp at hh
    · have hkv : kv.1 ∈ knownAbNames := by
        by_contra hc
        rw [ssf_unknown kv.1 hc] at hh
        simp at hh
      obtain ⟨kv2, hmem, hunk⟩ := h
      rcases List.mem_cons.mp hmem with rfl | hmem2
      · exact absurd hkv hunk
      · obtain ⟨k, hk1, hk2⟩ := ih ⟨kv2, hmem2, hunk⟩
        exact ⟨k, hk1, by simp [firstUnknownKey, hh, hk2]⟩

/-- Row accumulation of `comp_shift_calc`: it yields the per-name shift
rows when every key is in the table, and `KeyError` at the first unknown
key otherwise. -/
theorem shiftRows_eq (S : AbSet) :
    shiftRows S = (match firstUnknownKey S with
      | Option.none => Except.ok (S.map (fun kv =>
          (kv.2 * ((ssf_dict kv.1).getD (0, 0)).1,
           kv.2 * ((ssf_dict kv.1).getD (0, 0)).2)))
      | Option.some k => Except.error (PyErr.keyError k)) := by
  induction S with
  | nil => rfl
  | cons kv S ih =>
    cases hssf : ssf_dict kv.1 with
    | none =>
      have h1 : shiftTerm kv = Except.error (PyErr.keyError kv.1) := by
        rw [shiftTerm, hssf]
      have h2 : firstUnknownKey (kv :: S) = Option.some kv.1 := by
        simp [firstUnknownKey, hssf]
      rw [h2]
      show (do
        let row ← shiftTerm kv
        let rest ← shiftRows S
        Except.ok (row :: rest)) = Except.error (PyErr.keyError kv.1)
      rw [h1]
      rfl
    | some s =>
      have h1 : shiftTerm kv = Except.ok (kv.2 * s.1, kv.2 * s.2) := by
        rw [shiftTerm, hssf]
      have h2 : firstUnknownKey (kv :: S) = firstUnknownKey S := by
        simp [firstUnknownKey, hssf]
      rw [h2]
      show (do
        let row ← shiftTerm kv
        let rest ← shiftRows S
        Except.ok (row :: rest)) = _
      rw [h1, ih]
      cases hfk : firstUnknownKey S with
      | none =>
        simp only [List.map_cons, hssf, Option.getD_some]
        rfl
      | some k => rfl

/-- Claim C10: `comp_shift_calc` is a partial function on aberration
names.  When every key of the correction set is among the twelve names of
the scale-factor table it returns the fixed linear combination
`compFormula` of the deltas; when any key is outside the table it raises
an uncaught `KeyError` on such a key. -/
theorem comp_shift_calc_keyset (S : AbSet) :
    ((∀ kv ∈ S, kv.1 ∈ knownAbNames) →
      comp_shift_calc S = Except.ok (compFormula S)) ∧
    ((∃ kv ∈ S, kv.1 ∉ knownAbNames) →
      ∃ k, k ∉ knownAbNames ∧
        comp_shift_calc S = Except.error (PyErr.keyError k)) := by
  constructor
  · intro hall
    have hnone := firstUnknownKey_eq_none S hall
    rw [comp_shift_calc, shiftRows_eq, hnone]
    show Except.ok _ = Except.ok (compFormula S)
    congr 1
    rw [compFormula, Prod.mk.injEq]
    constructor
    · simp only [List.map_map, Function.comp_def]
      ring
    · simp only [List.map_map, Function.comp_def]
      ring
  · intro hex
    obtain ⟨k, hk, hfk⟩ := firstUnknownKey_eq_some S hex
    refine ⟨k, hk, ?_⟩
    rw [comp_shift_calc, shiftRows_eq, hfk]
    rfl

/-- Witness for `comp_shift_calc_keyset`: the all-known set
`{"B2_x": 400}` yields the linear combination, and the set `{"Q9": 1}`
with the foreign key `Q9` yields a `KeyError`. -/
theorem comp_shift_calc_keyset_witness :
    comp_shift_calc [("B2_x", (400 : ℚ))] =
      Except.ok (compFormula [("B2_x", (400 : ℚ))]) ∧
    ∃ k, k ∉ knownAbNames ∧
      comp_shift_calc [("Q9", (1 : ℚ))] =
        Except.error (PyErr.keyError k) :=
  ⟨(comp_shift_calc_keyset [("B2_x", (400 : ℚ))]).1 (by decide),
   (comp_shift_calc_keyset [("Q9", (1 : ℚ))]).2
     ⟨("Q9", (1 : ℚ)), by decide, by decide⟩⟩

/-- Claim C6: evaluation of apply-then-undo at the concrete non-empty
correction set `{"B2_x": 400}` with beam-shift compensation enabled.  The
defocus and the `B2` aberration return to their initial values, but the
beam-shift term `We` ends at `(-40/21, 0)` instead of its initial
`(0, 0)`: the undo path passes the original (non-negated) `ab_values`
dict to `comp_shift_calc`, so it re-applies the same compensation instead
of its negation, and apply-then-undo is not the identity on observable
state. -/
theorem abChange_bscomp_roundtrip_not_identity :
    (abRoundTrip [("B2_x", (400 : ℚ))] [("B2_x", PyVal.none)]
        false true).map (fun s => (s.defocus, s.ab "B2", s.ab "We")) =
      Except.ok ((0 : ℚ), ((0 : ℚ), (0 : ℚ)), ((-40/21 : ℚ), (0 : ℚ))) ∧
    ((-40/21 : ℚ), (0 : ℚ)) ≠ scope0.ab "We" := by
  have hcomp : comp_shift_calc [("B2_x", (400 : ℚ))] =
      Except.ok (-20/21, 0) := by
    have hfk : firstUnknownKey [("B2_x", (400 : ℚ))] = Option.none := rfl
    rw [comp_shift_calc, shiftRows_eq, hfk]
    show Except.ok _ = _
    congr 1
    have h1 : ssf_dict "B2_x" = Option.some (2/400, 0/400) := rfl
    simp only [List.map_cons, List.map_nil, h1, Option.getD_some,
      List.sum_cons, List.sum_nil, Prod.mk.injEq]
    constructor <;> norm_num
  have hL : "B2_x".length = 4 := rfl
  have hEx : pyEndsWith "B2_x" "_x" = true := rfl
  have hTake : "B2_x".take 2 = "B2" := rfl
  have hBW : ¬("B2" = "We") := by decide
  have hWB : ¬("We" = "B2") := by decide
  constructor
  · norm_num [abRoundTrip, abChange, abChangeStep, scope0, dget,
      correctAberration, change_defocus, hcomp, List.foldlM, List.map,
      okBind, errBind, Except.bind, Except.map, List.find?, hL, hEx,
      hTake, Function.update, Prod.ext_iff, hBW, hWB, Prod.mk_add_mk]
  · rw [scope0]
    norm_num [Prod.ext_iff]

/-! Stage centering (`center_region`, src/mcp_library.py lines 727-782). -/

/-- Resolution of the name `centered` at the end of `center_region`: the
loop sets a flag spelled `cenetered`, so the name `centered` tested by
`if not centered:` is bound nowhere (neither locally nor globally) and
Python raises `NameError` when the line runs. -/
def centered_lookup : Except PyErr Bool :=
  Except.error (PyErr.nameError "centered")

/-- The `for ii in range(ntries)` loop of `center_region`: each
iteration acquires a probe image and registers it against the reference
(`offsets ii` is the measured offset of probe `ii`), computes the
Euclidean offset distance, and either issues one corrective stage move
(distance above tolerance) or breaks out.  Returns the total number of
acquisitions and of corrective moves performed. -/
noncomputable def center_region_loop (offsets : ℕ → ℝ × ℝ)
    (max_distance : ℝ) : ℕ → ℕ → ℕ × ℕ → ℕ × ℕ
  | 0, _, counts => counts
  | rem + 1, ii, counts =>
    let o := offsets ii
    let dist := Real.sqrt (o.1 ^ 2 + o.2 ^ 2)
    if dist > max_distance then
      center_region_loop offsets max_distance rem (ii + 1)
        (counts.1 + 1, counts.2 + 1)
    else (counts.1 + 1, counts.2)

/-- Embedding of `center_region` (src/mcp_library.py lines 727-782): run
the probing loop, then execute `if not centered:` — which raises
`NameError` (see `centered_lookup`) on every path, before the
`ValueError` for retry exhaustion could ever be reached.  Returns the
outcome together with the acquisition and move counts. -/
noncomputable def center_region (offsets : ℕ → ℝ × ℝ) (max_distance : ℝ)
    (ntries : ℕ) : Except PyErr Unit × ℕ × ℕ :=
  let counts := center_region_loop offsets max_distance ntries 0 (0, 0)
  match centered_lookup with
  | Except.error e => (Except.error e, counts)
  | Except.ok centered =>
    if ¬centered then
      (Except.error (PyErr.valueError
        "Number of attempts to center has exceeded ntries."), counts)
    else (Except.ok (), counts)

/-- Claim C7: evaluation of the centering scenario with tolerance 50 nm,
measured offsets of magnitude 120, 80 and 40 nm, and `ntries = 4`.  The
loop behaves as the claim describes — moves after probes 1 and 2,
measures 40 ≤ 50 on probe 3, performs exactly 3 acquisitions and 2
corrective moves — but termination is not a normal successful return:
the final `if not centered:` raises `NameError` (the flag was assigned
as the misspelled `cenetered`), so even the converged run ends in an
uncaught exception. -/
theorem center_region_scenario_name_error :
    center_region
      (fun i => if i = 0 then ((120 : ℝ), 0)
        else if i = 1 then (80, 0)
        else if i = 2 then (40, 0) else (0, 0)) 50 4 =
      (Except.error (PyErr.nameError "centered"), 3, 2) := by
  have h120 : Real.sqrt (((120 : ℝ), (0 : ℝ)).1 ^ 2 + ((120 : ℝ), (0 : ℝ)).2 ^ 2) = 120 := by
    rw [show (((120 : ℝ), (0 : ℝ)).1 ^ 2 + ((120 : ℝ), (0 : ℝ)).2 ^ 2) = 120 ^ 2 by norm_num,
      Real.sqrt_sq (by norm_num : (0 : ℝ) ≤ 120)]
  have h80 : Real.sqrt (((80 : ℝ), (0 : ℝ)).1 ^ 2 + ((80 : ℝ), (0 : ℝ)).2 ^ 2) = 80 := by
    rw [show (((80 : ℝ), (0 : ℝ)).1 ^ 2 + ((80 : ℝ), (0 : ℝ)).2 ^ 2) = 80 ^ 2 by norm_num,
      Real.sqrt_sq (by norm_num : (0 : ℝ) ≤ 80)]
  have h40 : Real.sqrt (((40 : ℝ), (0 : ℝ)).1 ^ 2 + ((40 : ℝ), (0 : ℝ)).2 ^ 2) = 40 := by
    rw [show (((40 : ℝ), (0 : ℝ)).1 ^ 2 + ((40 : ℝ), (0 : ℝ)).2 ^ 2) = 40 ^ 2 by norm_num,
      Real.sqrt_sq (by norm_num : (0 : ℝ) ≤ 40)]
  have hg120 : ((120 : ℝ) > 50) = True := by norm_num
  have hg80 : ((80 : ℝ) > 50) = True := by norm_num
  have hg40 : ((40 : ℝ) > 50) = False := by norm_num
  simp [center_region, center_region_loop, centered_lookup,
    h120, h80, h40, hg120, hg80, hg40]

/-! Quality-metric evaluation (`BEACON_Server.metric_func`,
src/microscope_server.py lines 877-939).  Images are real matrices; the
Fourier-based quantities use the numpy transform conventions. -/

/-- Discrete 1-D Fourier transform as computed by `np.fft.fft`. -/
noncomputable def fft1 {k : ℕ} (y : Fin k → ℝ) (j : Fin k) : ℂ :=
  ∑ t : Fin k, (y t : ℂ) *
    Complex.exp (-2 * Real.pi * Complex.I * j.val * t.val / k)

/-- The `df_slice` quantity on a 1-D profile: the summed Fourier
magnitudes of all nonzero frequencies divided by the zero-frequency
magnitude. -/
noncomputable def dfSliceVec {k : ℕ} (y : Fin k → ℝ) : ℝ :=
  (∑ j ∈ Finset.univ.filter (fun j : Fin k => j.val ≠ 0),
    Complex.abs (fft1 y j)) /
  (∑ j ∈ Finset.univ.filter (fun j : Fin k => j.val = 0),
    Complex.abs (fft1 y j))

/-- The `df_slice` metric: collapse the image along its shorter axis
(`np.argmin(image_data.shape)` picks the first axis on ties) and apply
`dfSliceVec` to the resulting profile. -/
noncomputable def dfSlice {m n : ℕ} (im : Matrix (Fin m) (Fin n) ℝ) : ℝ :=
  if m ≤ n then dfSliceVec (fun j : Fin n => ∑ i : Fin m, im i j)
  else dfSliceVec (fun i : Fin m => ∑ j : Fin n, im i j)

/-- Mean pixel value (`np.mean`). -/
noncomputable def imMean {m n : ℕ} (im : Matrix (Fin m) (Fin n) ℝ) : ℝ :=
  (∑ i : Fin m, ∑ j : Fin n, im i j) / (m * n)

/-- Pixel variance (`np.var`). -/
noncomputable def imVar {m n : ℕ} (im : Matrix (Fin m) (Fin n) ℝ) : ℝ :=
  (∑ i : Fin m, ∑ j : Fin n, (im i j - imMean im) ^ 2) / (m * n)

/-- Standard deviation (`np.std`). -/
noncomputable def imStd {m n : ℕ} (im : Matrix (Fin m) (Fin n) ℝ) : ℝ :=
  Real.sqrt (imVar im)

/-- Fourier sample frequencies (`np.fft.fftfreq`). -/
noncomputable def fftfreq (k : ℕ) (i : Fin k) : ℝ :=
  if i.val < (k + 1) / 2 then (i.val : ℝ) / k else ((i.val : ℝ) - k) / k

/-- The Hann window (`np.hanning`); `np.hanning(1)` is `[1]`. -/
noncomputable def hanning (k : ℕ) (i : Fin k) : ℝ :=
  if k = 1 then 1
  else 1 / 2 - 1 / 2 * Real.cos (2 * Real.pi * i.val / (k - 1))

/-- Discrete 2-D Fourier transform as computed by `np.fft.fft2` on an
`m × n` array. -/
noncomputable def fft2m {m n : ℕ} (x : Fin m → Fin n → ℝ) (k : Fin m)
    (l : Fin n) : ℂ :=
  ∑ u : Fin m, ∑ v : Fin n, (x u v : ℂ) *
    Complex.exp (-2 * Real.pi * Complex.I *
      ((k.val : ℂ) * u.val / m + (l.val : ℂ) * v.val / n))

/-- The `roughness` metric: Hann-window the image, form the Fourier
intensity, and average the squared frequency radius against it. -/
noncomputable def roughness {m n : ℕ} (im : Matrix (Fin m) (Fin n) ℝ) : ℝ :=
  let w : Fin m → Fin n → ℝ := fun i j => hanning m i * hanning n j
  let G2 : Fin m → Fin n → ℝ := fun k l =>
    Complex.abs (fft2m (fun i j => im i j * w i j) k l) ^ 2
  (∑ k : Fin m, ∑ l : Fin n, G2 k l * (fftfreq m k ^ 2 + fftfreq n l ^ 2)) /
  (∑ k : Fin m, ∑ l : Fin n, G2 k l)

/-- Embedding of `BEACON_Server.metric_func` (src/microscope_server.py
lines 877-939): raise `TypeError` when the metric argument is not a
string; dispatch the six implemented metric names; return `None` for the
disabled `varlaplace` branch and for any other string. -/
noncomputable def metric_func {m n : ℕ} (image_data : Matrix (Fin m) (Fin n) ℝ)
    (metric : PyVal) : Except PyErr (Option ℝ) :=
  match metric with
  | PyVal.str s =>
    if s = "df_slice" then Except.ok (Option.some (dfSlice image_data))
    else if s = "std" then Except.ok (Option.some (imStd image_data))
    else if s = "normstd" then
      Except.ok (Option.some (imStd image_data / imMean image_data))
    else if s = "var" then Except.ok (Option.some (imVar image_data))
    else if s = "normvar" then
      Except.ok (Option.some (imVar image_data / imMean image_data ^ 2))
    else if s = "roughness" then
      Except.ok (Option.some (roughness image_data))
    else if s = "varlaplace" then Except.ok Option.none
    else Except.ok Option.none
  | _ => Except.error (PyErr.typeError "Metric is not a string")

/-- Claim C9: the quality-metric evaluator returns `None` (without
raising) for every string metric outside the six recognized names —
including the listed-but-disabled `varlaplace` — raises `TypeError`
for every non-string metric argument, and never raises on a string. -/
theorem metric_func_unknown_spec :
    (∀ (m n : ℕ) (im : Matrix (Fin m) (Fin n) ℝ) (s : String),
      s ∉ (["df_slice", "std", "normstd", "var", "normvar", "roughness"] :
        List String) →
      metric_func im (PyVal.str s) = Except.ok Option.none) ∧
    (∀ (m n : ℕ) (im : Matrix (Fin m) (Fin n) ℝ) (v : PyVal),
      (∀ s, v ≠ PyVal.str s) →
      metric_func im v =
        Except.error (PyErr.typeError "Metric is not a string")) ∧
    (∀ (m n : ℕ) (im : Matrix (Fin m) (Fin n) ℝ) (s : String),
      ∃ q, metric_func im (PyVal.str s) = Except.ok q) := by
  refine ⟨?_, ?_, ?_⟩
  · intro m n im s hs
    simp only [List.mem_cons, List.not_mem_nil, or_false, not_or] at hs
    obtain ⟨h1, h2, h3, h4, h5, h6⟩ := hs
    rw [metric_func]
    rw [if_neg h1, if_neg h2, if_neg h3, if_neg h4, if_neg h5, if_neg h6,
      ite_self]
  · intro m n im v hv
    cases v with
    | str s => exact absurd rfl (hv s)
    | none => rfl
    | bool b => rfl
    | num q => rfl
  · intro m n im s
    rw [metric_func]
    split_ifs <;> exact ⟨_, rfl⟩

/-- Witness for `metric_func_unknown_spec`: the disabled `varlaplace`
name yields `None`, and a boolean metric argument raises `TypeError`. -/
theorem metric_func_unknown_spec_witness :
    metric_func (0 : Matrix (Fin 1) (Fin 1) ℝ) (PyVal.str "varlaplace") =
      Except.ok Option.none ∧
    metric_func (0 : Matrix (Fin 1) (Fin 1) ℝ) (PyVal.bool true) =
      Except.error (PyErr.typeError "Metric is not a string") :=
  ⟨metric_func_unknown_spec.1 1 1 0 "varlaplace" (by decide),
   metric_func_unknown_spec.2.1 1 1 0 (PyVal.bool true)
     (fun s h => nomatch h)⟩

/-! Cross-correlation registration (`cross_correlate` and `registration`,
src/mcp_library.py lines 556-611).  Square `n × n` images are indexed by
`ZMod n` (numpy arrays under the circular index arithmetic of the
discrete Fourier transform); pixels are reals.  `np.fft` conventions:
the forward transform weights by `exp(-2*pi*I*(u*k+v*l)/n)`, the inverse
divides by `n^2`; both are expressed through the standard additive
character `ZMod.stdAddChar` (which maps `j` to `exp(2*pi*I*j/n)`). -/

section Registration

open Finset

variable {n : ℕ} [NeZero n]

/-- Sum of the standard character over one index: the character
orthogonality relation on `ZMod n`. -/
theorem char_sum (t : ZMod n) :
    ∑ k : ZMod n, ZMod.stdAddChar (t * k) = if t = 0 then (n : ℂ) else 0 := by
  split_ifs with h
  · simp only [h, zero_mul, AddChar.map_zero_eq_one, sum_const, card_univ,
      ZMod.card, nsmul_eq_mul, mul_one]
  · have he : ∑ k : ZMod n, ZMod.stdAddChar (t * k) =
        ∑ k : ZMod n, (AddChar.mulShift (ZMod.stdAddChar (N := n)) t) k := by
      simp [AddChar.mulShift_apply]
    rw [he]
    exact AddChar.sum_eq_zero_of_ne_one (ZMod.isPrimitive_stdAddChar n h)

/-- Orthogonality over both indices. -/
theorem char_sum2 (t1 t2 : ZMod n) :
    ∑ k : ZMod n, ∑ l : ZMod n, ZMod.stdAddChar (t1 * k + t2 * l) =
      if t1 = 0 ∧ t2 = 0 then ((n : ℂ) ^ 2) else 0 := by
  have he : ∀ k l : ZMod n, ZMod.stdAddChar (t1 * k + t2 * l) =
      ZMod.stdAddChar (t1 * k) * ZMod.stdAddChar (t2 * l) := fun k l =>
    AddChar.map_add_eq_mul _ _ _
  simp only [he]
  rw [← Finset.sum_mul_sum]
  rw [char_sum, char_sum]
  by_cases h1 : t1 = 0 <;> by_cases h2 : t2 = 0 <;>
    simp [h1, h2, sq]

/-- Complex conjugation inverts the standard character. -/
theorem conj_stdAddChar (x : ZMod n) :
    (starRingEnd ℂ) (ZMod.stdAddChar x) = ZMod.stdAddChar (-x) := by
  rw [ZMod.stdAddChar_apply, ZMod.stdAddChar_apply, AddChar.map_neg_eq_inv,
    Circle.coe_inv_eq_conj]

/-- The 2-D frequency pairing `w.1 * z.1 + w.2 * z.2`. -/
def dotz (w z : ZMod n × ZMod n) : ZMod n :=
  w.1 * z.1 + w.2 * z.2

/-- The 2-D discrete Fourier transform with indices packed in a pair. -/
noncomputable def Fz (a : ZMod n × ZMod n → ℂ) (z : ZMod n × ZMod n) : ℂ :=
  ∑ w : ZMod n × ZMod n, ZMod.stdAddChar (-(dotz w z)) * a w

/-- The inverse 2-D discrete Fourier transform with packed indices. -/
noncomputable def IFz (y : ZMod n × ZMod n → ℂ) (w : ZMod n × ZMod n) : ℂ :=
  ((n : ℂ) ^ 2)⁻¹ * ∑ z : ZMod n × ZMod n, ZMod.stdAddChar (dotz w z) * y z

/-- Orthogonality over the packed index. -/
theorem char_sum_G (t : ZMod n × ZMod n) :
    ∑ z : ZMod n × ZMod n, ZMod.stdAddChar (dotz t z) =
      if t = 0 then ((n : ℂ) ^ 2) else 0 := by
  rw [Fintype.sum_prod_type]
  have he : ∀ z1 z2 : ZMod n, dotz t (z1, z2) = t.1 * z1 + t.2 * z2 :=
    fun _ _ => rfl
  simp only [he]
  rw [char_sum2]
  congr 1
  simp [Prod.ext_iff]

/-- Conjugating the forward transform flips the character sign. -/
theorem conj_Fz (b : ZMod n × ZMod n → ℂ) (z : ZMod n × ZMod n) :
    (starRingEnd ℂ) (Fz b z) =
      ∑ s : ZMod n × ZMod n,
        ZMod.stdAddChar (dotz s z) * (starRingEnd ℂ) (b s) := by
  simp only [Fz, map_sum, map_mul, conj_stdAddChar, neg_neg]

/-- The cross-correlation theorem: the inverse transform of the forward
transform of `a` times the conjugated forward transform of `b` is the
circular cross-correlation `fun w => ∑ s, conj (b s) * a (s + w)`. -/
theorem IFz_corr (a b : (ZMod n × ZMod n) → ℂ) (w : ZMod n × ZMod n) :
    IFz (fun z => Fz a z * (starRingEnd ℂ) (Fz b z)) w =
      ∑ s : ZMod n × ZMod n, (starRingEnd ℂ) (b s) * a (s + w) := by
  have hn2 : ((n : ℂ) ^ 2) ≠ 0 :=
    pow_ne_zero 2 (Nat.cast_ne_zero.mpr (NeZero.ne n))
  have step1 : ∀ z : ZMod n × ZMod n,
      ZMod.stdAddChar (dotz w z) * (Fz a z * (starRingEnd ℂ) (Fz b z)) =
      ∑ p : ZMod n × ZMod n, ∑ s : ZMod n × ZMod n,
        ((starRingEnd ℂ) (b s) * a p) *
          ZMod.stdAddChar (dotz (w - p + s) z) := by
    intro z
    rw [Fz, conj_Fz, Finset.sum_mul_sum, Finset.mul_sum]
    refine Finset.sum_congr rfl fun p _ => ?_
    rw [Finset.mul_sum]
    refine Finset.sum_congr rfl fun s _ => ?_
    have hchi : ZMod.stdAddChar (dotz w z) *
        (ZMod.stdAddChar (-(dotz p z)) * ZMod.stdAddChar (dotz s z)) =
        ZMod.stdAddChar (dotz (w - p + s) z) := by
      rw [← AddChar.map_add_eq_mul, ← AddChar.map_add_eq_mul]
      congr 1
      simp only [dotz, Prod.fst_sub, Prod.snd_sub, Prod.fst_add, Prod.snd_add]
      ring
    calc ZMod.stdAddChar (dotz w z) *
        (ZMod.stdAddChar (-(dotz p z)) * a p *
          (ZMod.stdAddChar (dotz s z) * (starRingEnd ℂ) (b s)))
        = ((starRingEnd ℂ) (b s) * a p) * (ZMod.stdAddChar (dotz w z) *
            (ZMod.stdAddChar (-(dotz p z)) * ZMod.stdAddChar (dotz s z))) := by
          ring
      _ = ((starRingEnd ℂ) (b s) * a p) *
            ZMod.stdAddChar (dotz (w - p + s) z) := by rw [hchi]
  rw [IFz]
  simp only [step1]
  rw [Finset.sum_comm]
  have swap2 : ∀ p : ZMod n × ZMod n,
      (∑ z : ZMod n × ZMod n, ∑ s : ZMod n × ZMod n,
        ((starRingEnd ℂ) (b s) * a p) *
          ZMod.stdAddChar (dotz (w - p + s) z)) =
      ∑ s : ZMod n × ZMod n, ((starRingEnd ℂ) (b s) * a p) *
        (if w - p + s = 0 then ((n : ℂ) ^ 2) else 0) := by
    intro p
    rw [Finset.sum_comm]
    refine Finset.sum_congr rfl fun s _ => ?_
    rw [← Finset.mul_sum, char_sum_G]
  simp only [swap2]
  rw [Finset.sum_comm]
  have collapse : ∀ s : ZMod n × ZMod n,
      (∑ p : ZMod n × ZMod n, ((starRingEnd ℂ) (b s) * a p) *
        (if w - p + s = 0 then ((n : ℂ) ^ 2) else 0)) =
      ((starRingEnd ℂ) (b s) * a (w + s)) * ((n : ℂ) ^ 2) := by
    intro s
    have hc : ∀ p : ZMod n × ZMod n, (w - p + s = 0) = (w + s = p) := by
      intro p
      rw [sub_add_eq_add_sub, sub_eq_zero]
    simp only [hc, mul_ite, mul_zero]
    rw [Finset.sum_ite_eq]
    simp
  simp only [collapse]
  rw [Finset.mul_sum]
  refine Finset.sum_congr rfl fun s _ => ?_
  rw [add_comm w s]
  field_simp

/-- The 2-D discrete Fourier transform as computed by `np.fft.fft2`. -/
noncomputable def fft2z (x : ZMod n → ZMod n → ℂ) (k l : ZMod n) : ℂ :=
  ∑ u : ZMod n, ∑ v : ZMod n, ZMod.stdAddChar (-(u * k + v * l)) * x u v

/-- The inverse 2-D transform as computed by `np.fft.ifft2`. -/
noncomputable def ifft2z (y : ZMod n → ZMod n → ℂ) (u v : ZMod n) : ℂ :=
  ((n : ℂ) ^ 2)⁻¹ *
    ∑ k : ZMod n, ∑ l : ZMod n, ZMod.stdAddChar (u * k + v * l) * y k l

/-- The nested-index forward transform agrees with the packed one. -/
theorem fft2z_eq_Fz (x : ZMod n → ZMod n → ℂ) (k l : ZMod n) :
    fft2z x k l = Fz (fun w => x w.1 w.2) (k, l) := by
  rw [fft2z, Fz, Fintype.sum_prod_type]
  rfl

/-- The nested-index inverse transform agrees with the packed one. -/
theorem ifft2z_eq_IFz (y : ZMod n → ZMod n → ℂ) (u v : ZMod n) :
    ifft2z y u v = IFz (fun z => y z.1 z.2) (u, v) := by
  rw [ifft2z, IFz, Fintype.sum_prod_type]
  rfl

/-- Circular autocorrelation of a real image at an offset. -/
noncomputable def acorr (a : ZMod n → ZMod n → ℝ) (w1 w2 : ZMod n) : ℝ :=
  ∑ s : ZMod n, ∑ t : ZMod n, a s t * a (s + w1) (t + w2)

/-- For a real image, the real part of the correlation surface computed
in the Fourier domain is the circular autocorrelation. -/
theorem ifft2z_self_re (a : ZMod n → ZMod n → ℝ) (u v : ZMod n) :
    (ifft2z (fun k l => fft2z (fun p q => ((a p q : ℝ) : ℂ)) k l *
      (starRingEnd ℂ) (fft2z (fun p q => ((a p q : ℝ) : ℂ)) k l)) u v).re =
      acorr a u v := by
  have h1 : ifft2z (fun k l => fft2z (fun p q => ((a p q : ℝ) : ℂ)) k l *
      (starRingEnd ℂ) (fft2z (fun p q => ((a p q : ℝ) : ℂ)) k l)) u v =
      ∑ s : ZMod n × ZMod n,
        (starRingEnd ℂ) ((a s.1 s.2 : ℝ) : ℂ) *
          ((a (s.1 + u) (s.2 + v) : ℝ) : ℂ) := by
    rw [ifft2z_eq_IFz]
    have h2 := IFz_corr (n := n) (fun w => ((a w.1 w.2 : ℝ) : ℂ))
      (fun w => ((a w.1 w.2 : ℝ) : ℂ)) (u, v)
    rw [show (fun z : ZMod n × ZMod n =>
        fft2z (fun p q => ((a p q : ℝ) : ℂ)) z.1 z.2 *
          (starRingEnd ℂ) (fft2z (fun p q => ((a p q : ℝ) : ℂ)) z.1 z.2)) =
        (fun z : ZMod n × ZMod n =>
          Fz (fun w => ((a w.1 w.2 : ℝ) : ℂ)) z *
          (starRingEnd ℂ) (Fz (fun w => ((a w.1 w.2 : ℝ) : ℂ)) z)) from
      funext fun z => by rw [fft2z_eq_Fz]]
    rw [h2]
    exact Finset.sum_congr rfl fun s _ => by
      simp [Prod.fst_add, Prod.snd_add]
  rw [h1, Complex.re_sum, Fintype.sum_prod_type, acorr]
  refine Finset.sum_congr rfl fun s _ => ?_
  refine Finset.sum_congr rfl fun t _ => ?_
  simp [Complex.conj_ofReal, ← Complex.ofReal_mul]

/-- `np.fft.fftshift` on a 2-D array: roll both axes by `n / 2`, so entry
`(i, j)` of the output is entry `(i - n/2, j - n/2)` of the input (modular
index arithmetic). -/
noncomputable def fftshift2 (M : ZMod n → ZMod n → ℝ) (i j : ZMod n) : ℝ :=
  M (i - ((n / 2 : ℕ) : ZMod n)) (j - ((n / 2 : ℕ) : ZMod n))

/-- Embedding of `cross_correlate` (src/mcp_library.py lines 556-581) for
equal square shapes, where the centered zero-padding insertion of `im1`
into an `im0`-shaped buffer is the identity: transform both images,
multiply the first transform by the conjugate of the second, invert,
take the real part, and `fftshift` the result.  (The buffer `p0` of the
source is created and never used.) -/
noncomputable def cross_correlate (im0 im1 : ZMod n → ZMod n → ℝ)
    (i j : ZMod n) : ℝ :=
  fftshift2 (fun u v =>
    (ifft2z (fun k l => fft2z (fun p q => ((im0 p q : ℝ) : ℂ)) k l *
      (starRingEnd ℂ) (fft2z (fun p q => ((im1 p q : ℝ) : ℂ)) k l)) u v).re)
    i j

/-- Mean pixel value of a square image (`np.mean`). -/
noncomputable def imgMean (x : ZMod n → ZMod n → ℝ) : ℝ :=
  (∑ u : ZMod n, ∑ v : ZMod n, x u v) / (n * n)

/-- Mean-subtracted image, as formed by `curImage - curImage.mean()`. -/
noncomputable def msub (x : ZMod n → ZMod n → ℝ) : ZMod n → ZMod n → ℝ :=
  fun u v => x u v - imgMean x

/-- All index pairs of an `n × n` array in row-major order, the order in
which `np.argmax` scans the flattened array. -/
def rowMajorPairs (n : ℕ) : List (ℕ × ℕ) :=
  ((List.range n).map (fun i => (List.range n).map (fun j => (i, j)))).flatten

/-- First maximizer in scan order: `np.argmax` keeps the earliest entry
and replaces it only on a strictly greater value. -/
noncomputable def argmax2 (M : ℕ → ℕ → ℝ) (l : List (ℕ × ℕ)) : ℕ × ℕ :=
  l.foldl (fun best q => if M q.1 q.2 > M best.1 best.2 then q else best)
    (0, 0)

/-- Embedding of `registration` (src/mcp_library.py lines 584-611) on
square images of equal shape: cross-correlate the mean-subtracted current
and reference images, find the row-major argmax of the correlation
surface, subtract half the shape, and scale by the pixel calibration. -/
noncomputable def registration (refImage curImage : ZMod n → ZMod n → ℝ)
    (pixelSize : ℝ) : ℝ × ℝ :=
  let corr := cross_correlate (msub curImage) (msub refImage)
  let arg := argmax2 (fun i j => corr (i : ZMod n) (j : ZMod n))
    (rowMajorPairs n)
  (((arg.1 : ℝ) - (n : ℝ) / 2) * pixelSize,
   ((arg.2 : ℝ) - (n : ℝ) / 2) * pixelSize)

/-- The self-correlation surface is the shifted autocorrelation of the
image. -/
theorem cross_correlate_self (a : ZMod n → ZMod n → ℝ) (i j : ZMod n) :
    cross_correlate a a i j =
      acorr a (i - ((n / 2 : ℕ) : ZMod n)) (j - ((n / 2 : ℕ) : ZMod n)) := by
  rw [cross_correlate, fftshift2, ifft2z_self_re]

/-- A fold looking for the first strict maximum returns the unique
strict maximizer when one exists. -/
theorem foldl_argmax_eq {α : Type} (f : α → ℝ) (p : α) :
    ∀ (l : List α) (init : α), (p ∈ l ∨ init = p) →
      (∀ q ∈ l, q ≠ p → f q < f p) → (init ≠ p → f init < f p) →
      l.foldl (fun best x => if f x > f best then x else best) init = p := by
  intro l
  induction l with
  | nil =>
    intro init h1 _ _
    rcases h1 with h | h
    · exact absurd h (List.not_mem_nil p)
    · exact h
  | cons x xs ih =>
    intro init h1 h2 h3
    rw [List.foldl_cons]
    by_cases hx : x = p
    · subst hx
      have hnew : (if f x > f init then x else init) = x := by
        by_cases hi : init = x
        · simp [hi]
        · rw [if_pos]
          exact h3 hi
      rw [hnew]
      exact ih x (Or.inr rfl)
        (fun q hq hqp => h2 q (List.mem_cons_of_mem _ hq) hqp)
        (fun h => absurd rfl h)
    · have hfx : f x < f p := h2 x (List.mem_cons_self x xs) hx
      have hmem : p ∈ xs ∨ (if f x > f init then x else init) = p := by
        rcases h1 with hm | hinit
        · left
          rcases List.mem_cons.mp hm with h | h
          · exact absurd h.symm hx
          · exact h
        · right
          rw [hinit] at h3 ⊢
          rw [if_neg (lt_asymm hfx)]
      refine ih _ hmem
        (fun q hq hqp => h2 q (List.mem_cons_of_mem _ hq) hqp) ?_
      intro hne
      by_cases hcond : f x > f init
      · rw [if_pos hcond] at hne ⊢
        exact hfx
      · rw [if_neg hcond] at hne ⊢
        exact h3 hne

/-- Membership in the row-major index list is exactly boundedness. -/
theorem mem_rowMajorPairs (m : ℕ) (q : ℕ × ℕ) :
    q ∈ rowMajorPairs m ↔ q.1 < m ∧ q.2 < m := by
  obtain ⟨q1, q2⟩ := q
  simp only [rowMajorPairs, List.mem_flatten, List.mem_map, List.mem_range]
  constructor
  · rintro ⟨l, ⟨i, hi, rfl⟩, hq⟩
    rcases List.mem_map.mp hq with ⟨j, hj, hqe⟩
    cases hqe
    exact ⟨hi, List.mem_range.mp hj⟩
  · rintro ⟨h1, h2⟩
    exact ⟨(List.range m).map (fun j => (q1, j)), ⟨q1, h1, rfl⟩,
      List.mem_map.mpr ⟨q2, List.mem_range.mpr h2, rfl⟩⟩

/-- Claim C8 (amended): for every even-sized square image whose
mean-subtracted circular autocorrelation attains a strict maximum at zero
lag, registering the image against itself yields exactly the zero
vector, for every pixel calibration. -/
theorem registration_identity_strict_peak (hev : Even n)
    (x : ZMod n → ZMod n → ℝ) (cal : ℝ)
    (hmax : ∀ w : ZMod n × ZMod n, w ≠ 0 →
      acorr (msub x) w.1 w.2 < acorr (msub x) 0 0) :
    registration x x cal = (0, 0) := by
  have hn : 0 < n := Nat.pos_of_ne_zero (NeZero.ne n)
  have hhalf : n / 2 < n := Nat.div_lt_self hn one_lt_two
  have hcast : ∀ i : ℕ, i < n →
      ((i : ZMod n) = ((n / 2 : ℕ) : ZMod n)) → i = n / 2 := by
    intro i hi hcasteq
    have hv := congrArg ZMod.val hcasteq
    rwa [ZMod.val_cast_of_lt hi, ZMod.val_cast_of_lt hhalf] at hv
  have hfeq : ∀ q : ℕ × ℕ,
      cross_correlate (msub x) (msub x) (q.1 : ZMod n) (q.2 : ZMod n) =
      acorr (msub x) ((q.1 : ZMod n) - ((n / 2 : ℕ) : ZMod n))
        ((q.2 : ZMod n) - ((n / 2 : ℕ) : ZMod n)) :=
    fun q => cross_correlate_self (msub x) _ _
  have hfp : cross_correlate (msub x) (msub x)
      ((n / 2 : ℕ) : ZMod n) ((n / 2 : ℕ) : ZMod n) = acorr (msub x) 0 0 := by
    have := hfeq (n / 2, n / 2)
    simpa [sub_self] using this
  have hstrict : ∀ q ∈ rowMajorPairs n, q ≠ (n / 2, n / 2) →
      cross_correlate (msub x) (msub x) (q.1 : ZMod n) (q.2 : ZMod n) <
      cross_correlate (msub x) (msub x)
        ((n / 2 : ℕ) : ZMod n) ((n / 2 : ℕ) : ZMod n) := by
    rintro ⟨q1, q2⟩ hq hne
    rw [hfeq (q1, q2), hfp]
    refine hmax ((q1 : ZMod n) - ((n / 2 : ℕ) : ZMod n),
      (q2 : ZMod n) - ((n / 2 : ℕ) : ZMod n)) ?_
    intro h0
    simp only [Prod.ext_iff, Prod.fst_zero, Prod.snd_zero] at h0
    obtain ⟨h01, h02⟩ := h0
    rw [sub_eq_zero] at h01 h02
    obtain ⟨hq1, hq2⟩ := (mem_rowMajorPairs n (q1, q2)).mp hq
    exact hne (by rw [hcast q1 hq1 h01, hcast q2 hq2 h02])
  have hargmax : argmax2
      (fun i j => cross_correlate (msub x) (msub x) (i : ZMod n) (j : ZMod n))
      (rowMajorPairs n) = (n / 2, n / 2) := by
    exact foldl_argmax_eq
      (fun q : ℕ × ℕ =>
        cross_correlate (msub x) (msub x) (q.1 : ZMod n) (q.2 : ZMod n))
      (n / 2, n / 2) (rowMajorPairs n) (0, 0)
      (Or.inl ((mem_rowMajorPairs n _).mpr ⟨hhalf, hhalf⟩)) hstrict
      (fun hne => hstrict (0, 0) ((mem_rowMajorPairs n _).mpr ⟨hn, hn⟩) hne)
  simp only [registration]
  rw [hargmax]
  obtain ⟨m, hm⟩ := hev
  have hdiv : n / 2 = m := by omega
  rw [Prod.ext_iff]
  constructor
  · show (((n / 2 : ℕ) : ℝ) - (n : ℝ) / 2) * cal = 0
    rw [hdiv, hm]
    push_cast
    ring
  · show (((n / 2 : ℕ) : ℝ) - (n : ℝ) / 2) * cal = 0
    rw [hdiv, hm]
    push_cast
    ring

end Registration

/-- Expansion of a sum over the two residues mod 2. -/
theorem zmod2_sum (g : ZMod 2 → ℝ) : ∑ i : ZMod 2, g i = g 0 + g 1 := by
  rw [show (Finset.univ : Finset (ZMod 2)) = {0, 1} from by decide]
  rw [Finset.sum_insert (by decide), Finset.sum_singleton]

/-- Counterexample to claim C8 as stated: registering the constant 2 × 2
image against itself with calibration 1 yields `(-1, -1)` — a full pixel
off — not the zero vector.  The mean-subtracted image is identically
zero, the correlation surface is identically zero, and `np.argmax`
returns the first (row-major) index of a constant array, so the computed
offset is `(0 - n/2) * cal` on each axis. -/
theorem registration_constant_counterexample :
    registration (n := 2) (fun _ _ => (1 : ℝ)) (fun _ _ => (1 : ℝ)) 1 =
      (-1, -1) ∧ ((-1, -1) : ℝ × ℝ) ≠ (0, 0) := by
  have hmean : imgMean (n := 2) (fun _ _ => (1 : ℝ)) = 1 := by
    rw [imgMean]
    simp only [zmod2_sum]
    norm_num
  have hmsub : msub (n := 2) (fun _ _ => (1 : ℝ)) = fun _ _ => 0 := by
    funext u v
    rw [msub, hmean]
    norm_num
  have hfz : ∀ k l : ZMod 2,
      fft2z (fun _ _ : ZMod 2 => (0 : ℂ)) k l = 0 := by
    intro k l
    rw [fft2z]
    simp
  have hcorr : ∀ i j : ZMod 2,
      cross_correlate (msub (n := 2) (fun _ _ => (1 : ℝ)))
        (msub (n := 2) (fun _ _ => (1 : ℝ))) i j = 0 := by
    intro i j
    rw [cross_correlate, fftshift2]
    have hfun : (fun p q : ZMod 2 =>
        ((msub (n := 2) (fun _ _ => (1 : ℝ)) p q : ℝ) : ℂ)) =
        fun _ _ : ZMod 2 => (0 : ℂ) := by
      funext p q
      rw [hmsub]
      norm_num
    rw [hfun]
    simp only [hfz, zero_mul, map_zero, mul_zero]
    rw [ifft2z]
    simp
  constructor
  · simp only [registration, hcorr]
    have harg : argmax2 (fun _ _ : ℕ => (0 : ℝ)) (rowMajorPairs 2) =
        (0, 0) := by
      have hlist : rowMajorPairs 2 = [(0, 0), (0, 1), (1, 0), (1, 1)] := by
        decide
      rw [argmax2, hlist]
      simp [lt_irrefl]
    rw [harg]
    rw [Prod.ext_iff]
    constructor <;> norm_num
  · intro hcontra
    rw [Prod.ext_iff] at hcontra
    norm_num at hcontra

/-- Witness for `registration_identity_strict_peak`: the 2 × 2 image with
a single bright pixel has a strict autocorrelation peak at zero lag, and
its self-registration is exactly `(0, 0)` at calibration 37. -/
theorem registration_identity_strict_peak_witness :
    registration (n := 2)
      (fun u v => if u = 0 ∧ v = 0 then (1 : ℝ) else 0)
      (fun u v => if u = 0 ∧ v = 0 then (1 : ℝ) else 0) 37 = (0, 0) := by
  refine registration_identity_strict_peak ⟨1, rfl⟩ _ 37 ?_
  have h10 : (1 : ZMod 2) ≠ 0 := by decide
  have h11 : (1 : ZMod 2) + 1 = 0 := by decide
  have h2 : (2 : ZMod 2) = 0 := by decide
  have hZ : ∀ z : ZMod 2, z = 0 ∨ z = 1 := by decide
  have hmean : imgMean (n := 2)
      (fun u v => if u = 0 ∧ v = 0 then (1 : ℝ) else 0) = 1 / 4 := by
    rw [imgMean]
    simp only [zmod2_sum]
    norm_num [h10]
  have hms : ∀ u v : ZMod 2,
      msub (n := 2) (fun u v => if u = 0 ∧ v = 0 then (1 : ℝ) else 0) u v =
        if u = 0 ∧ v = 0 then 3 / 4 else -(1 / 4) := by
    intro u v
    rw [msub, hmean]
    rcases hZ u with rfl | rfl <;> rcases hZ v with rfl | rfl <;>
      norm_num [h10]
  have hexp : ∀ F : ZMod 2 → ZMod 2 → ℝ,
      (∑ s : ZMod 2, ∑ t : ZMod 2, F s t) =
        F 0 0 + F 0 1 + F 1 0 + F 1 1 := by
    intro F
    rw [zmod2_sum (fun s => ∑ t : ZMod 2, F s t), zmod2_sum (F 0),
      zmod2_sum (F 1)]
    ring
  intro w hw
  obtain ⟨w1, w2⟩ := w
  have hwc : ¬(w1 = 0 ∧ w2 = 0) := by
    intro hc
    exact hw (by rw [hc.1, hc.2]; rfl)
  rw [acorr, acorr, hexp, hexp]
  rcases hZ w1 with rfl | rfl <;> rcases hZ w2 with rfl | rfl
  · exact absurd ⟨rfl, rfl⟩ hwc
  · simp only [hms, zero_add, h11]
    norm_num [h10]
  · simp only [hms, zero_add, h11]
    norm_num [h10]
  · simp only [hms, zero_add, h11]
    norm_num [h10]

end Spec2Proof
